import Mathlib

set_option autoImplicit false
set_option linter.unnecessarySimpa false
set_option linter.unusedVariables false

/-!
Verification development for the WebSocket presence and message-fanout hub
(`backend/src/websocket/websocket.ts`).  The mutable state of the
`WebSocketManager` class (the `connectedUsers` and `typingUsers` maps), the
external store collaborators (`User`, `Chat`, `Message` documents) and the
pending `setTimeout` expiry callbacks are embedded as one explicit state
record; each event handler of the manager becomes a pure function from a
state and the handler arguments to the successor state together with the
list of deliveries performed via `sendToClient`.
-/

namespace ChatHub

/-- An `ExtendedWebSocket`: a physical connection, identified by `connId`,
carrying the fields the manager attaches to it (`userId` and `username`
once authentication binds an identity, `isAlive` for the heartbeat). -/
structure Conn where
  connId : Nat
  userId : Option String
  username : Option String
  isAlive : Bool
deriving DecidableEq

/-- A `Chat` document: identifier, participant identities, and the
last-message pointer updated by `handleSendMessage`. -/
structure Chat where
  chatId : String
  participants : List String
  lastMessage : Option Nat
deriving DecidableEq

/-- One entry of a message document's `readBy` array. -/
structure ReadReceipt where
  user : String
  readAt : Nat
deriving DecidableEq

/-- A `Message` document as persisted by the hub. -/
structure Message where
  msgId : Nat
  sender : String
  chat : String
  content : String
  readBy : List ReadReceipt
deriving DecidableEq

/-- A `User` document field relevant to the hub: the presence flag toggled
at connect and disconnect time. -/
structure UserRec where
  uid : String
  isOnline : Bool
deriving DecidableEq

/-- A value of the `typingUsers` map: the `TypingUser` record stored by
`handleTypingStart`. -/
structure TypingUser where
  userId : String
  username : String
  chatId : String
  timestamp : Nat
deriving DecidableEq

/-- A pending `setTimeout` callback scheduled by `handleTypingStart`:
it fires at `fireAt` (3000ms after the start) and captures the typing key
and the sender's identity for the synthetic `typing_stop` broadcast. -/
structure TypingTimer where
  fireAt : Nat
  key : String
  userId : String
  username : String
  chatId : String
deriving DecidableEq

/-- Discriminator of outbound events (`WebSocketMessage.type`). -/
inductive EventType where
  | connection
  | room_joined
  | room_left
  | new_message
  | typing_start
  | typing_stop
  | message_read
  | user_online
  | user_offline
  | error
deriving DecidableEq

/-- An outbound event: the type discriminator plus the payload fields the
claims observe (`payload.userId`, `payload.chatId`, `payload.messageId`). -/
structure Event where
  type : EventType
  evUserId : Option String
  evChatId : Option String
  evMessageId : Option Nat
deriving DecidableEq

/-- One `sendToClient` call: the event was written to the live connection
registered for `recipient`. -/
structure Delivery where
  recipient : String
  event : Event
deriving DecidableEq

/-- The shared state of the hub: the two manager maps, the store documents,
the message-id counter of the store, and the pending typing-expiry timers. -/
structure HubState where
  connectedUsers : List (String × Conn)
  typingUsers : List (String × TypingUser)
  users : List UserRec
  chats : List Chat
  messages : List Message
  nextMessageId : Nat
  timers : List TypingTimer
deriving DecidableEq

/-- `Map.get` on an association list (first binding for the key wins). -/
def mapGet {α : Type} (m : List (String × α)) (k : String) : Option α :=
  (m.find? (fun kv => kv.1 == k)).map (fun kv => kv.2)

/-- `Map.set`: unconditional overwrite of the binding for `k`. -/
def mapSet {α : Type} (m : List (String × α)) (k : String) (v : α) :
    List (String × α) :=
  m.filter (fun kv => kv.1 != k) ++ [(k, v)]

/-- `Map.delete`: keyed removal of every binding for `k`. -/
def mapDelete {α : Type} (m : List (String × α)) (k : String) :
    List (String × α) :=
  m.filter (fun kv => kv.1 != k)

theorem mapGet_mapDelete_self {α : Type} (m : List (String × α)) (k : String) :
    mapGet (mapDelete m k) k = none := by
  induction m with
  | nil => rfl
  | cons kv m ih =>
    by_cases h : kv.1 = k
    · simp only [mapDelete, List.filter_cons, h, bne_self_eq_false,
        Bool.false_eq_true, if_neg, not_false_iff]
      exact ih
    · have hbne : (kv.1 != k) = true := by simp [bne, h]
      simp only [mapDelete, List.filter_cons, hbne, if_pos]
      simpa [mapGet, List.find?_cons, h, mapDelete] using ih

theorem mapGet_mapDelete_ne {α : Type} (m : List (String × α)) (k k2 : String)
    (h : k ≠ k2) : mapGet (mapDelete m k) k2 = mapGet m k2 := by
  induction m with
  | nil => rfl
  | cons kv m ih =>
    by_cases hk : kv.1 = k
    · have : (kv.1 == k2) = false := by
        subst hk; simp [h]
      simp only [mapDelete, List.filter_cons, hk, bne_self_eq_false, if_neg,
        Bool.false_eq_true, not_false_iff]
      simpa [mapGet, List.find?_cons, this, mapDelete] using ih
    · have hbne : (kv.1 != k) = true := by simp [bne, hk]
      simp only [mapDelete, List.filter_cons, hbne, if_pos]
      by_cases h2 : kv.1 = k2
      · simp [mapGet, List.find?_cons, h2]
      · simpa [mapGet, List.find?_cons, h2, mapDelete] using ih

theorem mapGet_mapSet_self {α : Type} (m : List (String × α)) (k : String)
    (v : α) : mapGet (mapSet m k v) k = some v := by
  induction m with
  | nil => simp [mapGet, mapSet]
  | cons kv m ih =>
    by_cases h : kv.1 = k
    · simpa [mapSet, List.filter_cons, h] using ih
    · have hbne : (kv.1 != k) = true := by simp [bne, h]
      simp only [mapSet, List.filter_cons, hbne, if_pos]
      simpa [mapGet, List.find?_cons, h, mapSet] using ih

theorem mapDelete_of_absent {α : Type} (m : List (String × α)) (k : String)
    (h : mapGet m k = none) : mapDelete m k = m := by
  induction m with
  | nil => rfl
  | cons kv m ih =>
    by_cases hk : kv.1 = k
    · exfalso
      simp [mapGet, List.find?_cons, hk] at h
    · have hbne : (kv.1 != k) = true := by simp [bne, hk]
      have hrest : mapGet m k = none := by
        simpa [mapGet, List.find?_cons, hk] using h
      have hstep : mapDelete (kv :: m) k = kv :: mapDelete m k := by
        simp [mapDelete, List.filter_cons, hbne]
      rw [hstep, ih hrest]

/-- The per-participant body of `broadcastToChat`: skip the excluded user,
deliver iff the participant has a live connection in the registry. -/
def chatStep (reg : List (String × Conn)) (ev : Event) (excl : Option String)
    (p : String) : Option Delivery :=
  if excl == some p then none
  else if (mapGet reg p).isSome then some ⟨p, ev⟩ else none

/-- `broadcastToChat(chatId, message, excludeUserId?)`: look the chat up by
id, then send to every participant with a live connection, skipping the
excluded user. A missing chat broadcasts nothing. -/
def broadcastToChat (s : HubState) (chatId : String) (ev : Event)
    (excl : Option String) : List Delivery :=
  match s.chats.find? (fun c => c.chatId == chatId) with
  | none => []
  | some chat => chat.participants.filterMap (chatStep s.connectedUsers ev excl)

/-- The per-participant body of `broadcastToUserChats`: skip the triggering
user and anyone already notified; otherwise record the participant in the
notified set and deliver iff they have a live connection. -/
def notifyStep (reg : List (String × Conn)) (userId : String) (ev : Event)
    (acc : List String × List Delivery) (p : String) :
    List String × List Delivery :=
  if p == userId || acc.1.contains p then acc
  else
    (p :: acc.1,
      match mapGet reg p with
      | some _ => acc.2 ++ [⟨p, ev⟩]
      | none => acc.2)

/-- `broadcastToUserChats(userId, message)`: find every chat the user
participates in, then walk all their participants with a shared
`notifiedUsers` set, delivering to each distinct connected participant
other than the user. -/
def broadcastToUserChats (s : HubState) (userId : String) (ev : Event) :
    List Delivery :=
  (((s.chats.filter (fun c => c.participants.contains userId)).foldl
      (fun acc chat => chat.participants.foldl (notifyStep s.connectedUsers userId ev) acc)
      ([], []))).2

/-- The typing key `userId + "-" + chatId` used by the `typingUsers` map. -/
def typingKey (uid chatId : String) : String := uid ++ "-" ++ chatId

/-- The `error` reply sent to a single client via `sendToClient`. -/
def errorEvent : Event :=
  { type := EventType.error, evUserId := none, evChatId := none,
    evMessageId := none }

/-- The `typing_stop` event fanned out for `(uid, chatId)`. -/
def typingStopEvent (uid chatId : String) : Event :=
  { type := EventType.typing_stop, evUserId := some uid,
    evChatId := some chatId, evMessageId := none }

/-- The `typing_start` event fanned out for `(uid, chatId)`. -/
def typingStartEvent (uid chatId : String) : Event :=
  { type := EventType.typing_start, evUserId := some uid,
    evChatId := some chatId, evMessageId := none }

/-- The `new_message` event: payload carries the populated message
(referenced by its id) and the chat id. -/
def newMessageEvent (chatId : String) (mid : Nat) : Event :=
  { type := EventType.new_message, evUserId := none,
    evChatId := some chatId, evMessageId := some mid }

/-- The `message_read` event broadcast to the chat. -/
def messageReadEvent (uid chatId : String) (mid : Nat) : Event :=
  { type := EventType.message_read, evUserId := some uid,
    evChatId := some chatId, evMessageId := some mid }

/-- The `user_offline` presence event. -/
def userOfflineEvent (uid : String) : Event :=
  { type := EventType.user_offline, evUserId := some uid,
    evChatId := none, evMessageId := none }

/-- The chat lookup of `handleSendMessage`: the first chat matching the id
whose participants contain the sender. -/
def findChatFor (s : HubState) (chatId uid : String) : Option Chat :=
  s.chats.find? (fun c => c.chatId == chatId && c.participants.contains uid)

/-- `handleSendMessage`: authorize by membership (error to sender if the
lookup fails), persist the message, set the chat's last-message pointer,
broadcast `new_message` to all participants, then delete the sender's
typing claim and broadcast `typing_stop` excluding the sender. -/
def handleSendMessage (s : HubState) (uid uname chatId content : String) :
    HubState × List Delivery :=
  match findChatFor s chatId uid with
  | none => (s, [⟨uid, errorEvent⟩])
  | some _ =>
    let mid := s.nextMessageId
    let newMessage : Message :=
      { msgId := mid, sender := uid, chat := chatId, content := content,
        readBy := [] }
    let s1 : HubState :=
      { s with
        messages := s.messages ++ [newMessage],
        nextMessageId := mid + 1,
        chats := s.chats.map (fun c =>
          if c.chatId == chatId then { c with lastMessage := some mid } else c) }
    let d1 := broadcastToChat s1 chatId (newMessageEvent chatId mid) none
    let s2 : HubState :=
      { s1 with typingUsers := mapDelete s1.typingUsers (typingKey uid chatId) }
    let d2 := broadcastToChat s2 chatId (typingStopEvent uid chatId) (some uid)
    (s2, d1 ++ d2)

/-- The `TypingUser` record stored by `handleTypingStart` at time `now`. -/
def typingClaim (uid uname chatId : String) (now : Nat) : TypingUser :=
  { userId := uid, username := uname, chatId := chatId, timestamp := now }

/-- The expiry callback scheduled by a typing_start at time `now`: it
fires 3000ms later and captures the typing key and the sender. -/
def typingTimerAt (uid uname chatId : String) (now : Nat) : TypingTimer :=
  { fireAt := now + 3000, key := typingKey uid chatId, userId := uid,
    username := uname, chatId := chatId }

/-- `handleTypingStart`: store the typing claim under the typing key,
broadcast `typing_start` excluding the sender, and schedule a 3000ms
expiry callback for the key. -/
def handleTypingStart (s : HubState) (uid uname chatId : String) (now : Nat) :
    HubState × List Delivery :=
  let key := typingKey uid chatId
  let s1 : HubState :=
    { s with
      typingUsers := mapSet s.typingUsers key (typingClaim uid uname chatId now),
      timers := s.timers ++ [typingTimerAt uid uname chatId now] }
  (s1, broadcastToChat s1 chatId (typingStartEvent uid chatId) (some uid))

/-- The `setTimeout` callback scheduled by `handleTypingStart`: if the
typing key is still present, delete it and broadcast `typing_stop`
excluding the claim's user; otherwise do nothing. -/
def runTypingTimeout (s : HubState) (tm : TypingTimer) :
    HubState × List Delivery :=
  if (mapGet s.typingUsers tm.key).isSome then
    let s1 : HubState := { s with typingUsers := mapDelete s.typingUsers tm.key }
    (s1, broadcastToChat s1 tm.chatId (typingStopEvent tm.userId tm.chatId)
      (some tm.userId))
  else (s, [])

/-- `handleTypingStop`: delete the typing key and broadcast `typing_stop`
excluding the sender. -/
def handleTypingStop (s : HubState) (uid uname chatId : String) :
    HubState × List Delivery :=
  let s1 : HubState :=
    { s with typingUsers := mapDelete s.typingUsers (typingKey uid chatId) }
  (s1, broadcastToChat s1 chatId (typingStopEvent uid chatId) (some uid))

/-- `handleMessageRead`: look the message up (silently return if absent);
append a read receipt and persist only when the sender is not already in
`readBy`; broadcast `message_read` to all participants with no exclusion. -/
def handleMessageRead (s : HubState) (uid uname : String) (messageId : Nat)
    (chatId : String) (now : Nat) : HubState × List Delivery :=
  match s.messages.find? (fun m => m.msgId == messageId) with
  | none => (s, [])
  | some m =>
    let alreadyRead := m.readBy.any (fun r => r.user == uid)
    let s1 : HubState :=
      if alreadyRead then s
      else
        { s with messages := s.messages.map (fun mm =>
            if mm.msgId == messageId then
              { mm with readBy := mm.readBy ++ [{ user := uid, readAt := now }] }
            else mm) }
    (s1, broadcastToChat s1 chatId (messageReadEvent uid chatId messageId) none)

/-- `handleDisconnection`: guarded by `if (ws.userId)`. When an identity is
bound: delete the registry entry by key, drop all typing claims of the
user, mark the user offline, and broadcast `user_offline` to the user's
chats. When no identity is bound: do nothing. -/
def handleDisconnection (s : HubState) (ws : Conn) :
    HubState × List Delivery :=
  match ws.userId with
  | none => (s, [])
  | some uid =>
    let s1 : HubState :=
      { s with
        connectedUsers := mapDelete s.connectedUsers uid,
        typingUsers := s.typingUsers.filter (fun kv => kv.2.userId != uid),
        users := s.users.map (fun u =>
          if u.uid == uid then { u with isOnline := false } else u) }
    (s1, broadcastToUserChats s1 uid (userOfflineEvent uid))

/-- One heartbeat tick for a single connection, as in `setupHeartbeat`:
a connection whose `isAlive` flag is still `false` is terminated (`none`);
otherwise the flag is reset to `false` and a ping is sent. A pong resets
the flag to `true` between ticks; a connection that never answers stays at
`false`. -/
def heartbeatCheck (c : Conn) : Option Conn :=
  if c.isAlive = false then none
  else some { c with isAlive := false }

/-- The number of deliveries in `ds` addressed to `rcpt` carrying an event
of type `ty`. -/
def countDeliv (ds : List Delivery) (rcpt : String) (ty : EventType) : Nat :=
  (ds.filter (fun d => d.recipient == rcpt && d.event.type == ty)).length

theorem countDeliv_append (a b : List Delivery) (v : String) (ty : EventType) :
    countDeliv (a ++ b) v ty = countDeliv a v ty + countDeliv b v ty := by
  simp [countDeliv, List.filter_append]

theorem countDeliv_filterMap_chatStep (reg : List (String × Conn)) (ev : Event)
    (excl : Option String) (v : String) (ty : EventType) (ps : List String) :
    countDeliv (ps.filterMap (chatStep reg ev excl)) v ty =
      if ¬ excl = some v ∧ (mapGet reg v).isSome = true ∧ ev.type = ty
      then ps.count v else 0 := by
  induction ps with
  | nil => simp [countDeliv]
  | cons p ps ih =>
    rw [List.filterMap_cons]
    by_cases hex : excl = some p
    · have hstep : chatStep reg ev excl p = none := by
        simp [chatStep, hex]
      rw [hstep, ih]
      by_cases hcond : ¬ excl = some v ∧ (mapGet reg v).isSome = true ∧ ev.type = ty
      · have hvp : ¬ p = v := by
          intro hpv
          exact hcond.1 (hpv ▸ hex)
        simp [hcond, List.count_cons, hvp]
      · simp [hcond]
    · by_cases hcon : (mapGet reg p).isSome = true
      · have hstep : chatStep reg ev excl p = some ⟨p, ev⟩ := by
          simp [chatStep, hcon]
          intro hc
          exact absurd (by simpa using hc) hex
        rw [hstep]
        by_cases hvp : p = v
        · subst hvp
          by_cases hty : ev.type = ty
          · have hcond : ¬ excl = some p ∧ (mapGet reg p).isSome = true ∧
                ev.type = ty := ⟨hex, hcon, hty⟩
            have hhead : countDeliv (⟨p, ev⟩ :: ps.filterMap (chatStep reg ev excl)) p ty =
                1 + countDeliv (ps.filterMap (chatStep reg ev excl)) p ty := by
              simp [countDeliv, List.filter_cons, hty, Nat.add_comm]
            rw [hhead, ih]
            simp [hcond, List.count_cons, Nat.add_comm]
          · have hcond : ¬ (¬ excl = some p ∧ (mapGet reg p).isSome = true ∧
                ev.type = ty) := by
              intro hc; exact hty hc.2.2
            have hhead : countDeliv (⟨p, ev⟩ :: ps.filterMap (chatStep reg ev excl)) p ty =
                countDeliv (ps.filterMap (chatStep reg ev excl)) p ty := by
              simp [countDeliv, List.filter_cons, hty]
            rw [hhead, ih]
            simp [hcond]
        · have hhead : countDeliv (⟨p, ev⟩ :: ps.filterMap (chatStep reg ev excl)) v ty =
              countDeliv (ps.filterMap (chatStep reg ev excl)) v ty := by
            simp [countDeliv, List.filter_cons, hvp]
          rw [hhead, ih]
          by_cases hcond : ¬ excl = some v ∧ (mapGet reg v).isSome = true ∧ ev.type = ty
          · simp [hcond, List.count_cons, hvp]
          · simp [hcond]
      · have hstep : chatStep reg ev excl p = none := by
          simp [chatStep, hcon]
        rw [hstep, ih]
        by_cases hcond : ¬ excl = some v ∧ (mapGet reg v).isSome = true ∧ ev.type = ty
        · have hvp : ¬ p = v := by
            intro hpv
            exact hcon (hpv ▸ hcond.2.1)
          simp [hcond, List.count_cons, hvp]
        · simp [hcond]

theorem countDeliv_broadcastToChat (s : HubState) (chatId : String) (ev : Event)
    (excl : Option String) (v : String) (ty : EventType) (chat : Chat)
    (hfind : s.chats.find? (fun c => c.chatId == chatId) = some chat)
    (hnd : chat.participants.Nodup) :
    countDeliv (broadcastToChat s chatId ev excl) v ty =
      if v ∈ chat.participants ∧ ¬ excl = some v ∧
          (mapGet s.connectedUsers v).isSome = true ∧ ev.type = ty
      then 1 else 0 := by
  rw [broadcastToChat, hfind]
  rw [countDeliv_filterMap_chatStep]
  by_cases hmem : v ∈ chat.participants
  · by_cases hrest : ¬ excl = some v ∧ (mapGet s.connectedUsers v).isSome = true ∧
        ev.type = ty
    · rw [if_pos hrest, if_pos ⟨hmem, hrest⟩]
      exact List.count_eq_one_of_mem hnd hmem
    · rw [if_neg hrest, if_neg (fun hc => hrest hc.2)]
  · by_cases hrest : ¬ excl = some v ∧ (mapGet s.connectedUsers v).isSome = true ∧
        ev.type = ty
    · rw [if_pos hrest, if_neg (fun hc => hmem hc.1)]
      exact List.count_eq_zero_of_not_mem hmem
    · rw [if_neg hrest, if_neg (fun hc => hrest hc.2)]

theorem mem_broadcastToChat_of (s : HubState) (chatId : String) (ev : Event)
    (excl : Option String) (chat : Chat) (v : String)
    (hfind : s.chats.find? (fun c => c.chatId == chatId) = some chat)
    (hv : v ∈ chat.participants) (hex : ¬ excl = some v)
    (hcon : (mapGet s.connectedUsers v).isSome = true) :
    (⟨v, ev⟩ : Delivery) ∈ broadcastToChat s chatId ev excl := by
  rw [broadcastToChat, hfind]
  apply List.mem_filterMap.mpr
  refine ⟨v, hv, ?_⟩
  simp [chatStep, hcon]
  intro hc
  exact absurd (by simpa using hc) hex

theorem eventType_of_mem_filterMap_chatStep (reg : List (String × Conn))
    (ev : Event) (excl : Option String) (ps : List String) (d : Delivery)
    (hd : d ∈ ps.filterMap (chatStep reg ev excl)) : d.event = ev := by
  rcases List.mem_filterMap.mp hd with ⟨p, _, hp⟩
  by_cases hex : (excl == some p) = true
  · simp [chatStep, hex] at hp
  · by_cases hcon : (mapGet reg p).isSome = true
    · simp [chatStep, hex, hcon] at hp
      rw [← hp]
    · simp [chatStep, hex, hcon] at hp

theorem notifyStep_skip (reg : List (String × Conn)) (u : String) (ev : Event)
    (acc : List String × List Delivery) (p : String)
    (h : p = u ∨ p ∈ acc.1) : notifyStep reg u ev acc p = acc := by
  unfold notifyStep
  split
  · rfl
  · next hc =>
    exfalso
    apply hc
    rcases h with rfl | hm
    · simp
    · simp [hm]

theorem notifyStep_add (reg : List (String × Conn)) (u : String) (ev : Event)
    (acc : List String × List Delivery) (p : String)
    (h1 : ¬ p = u) (h2 : p ∉ acc.1) :
    notifyStep reg u ev acc p =
      (p :: acc.1,
        match mapGet reg p with
        | some _ => acc.2 ++ [⟨p, ev⟩]
        | none => acc.2) := by
  unfold notifyStep
  split
  · next hc =>
    exfalso
    simp only [Bool.or_eq_true, beq_iff_eq] at hc
    rcases hc with hx | hx
    · exact h1 hx
    · exact h2 (List.mem_of_elem_eq_true hx)
  · rfl

theorem notifyFold_eq_flat (reg : List (String × Conn)) (u : String) (ev : Event)
    (chats : List Chat) (acc : List String × List Delivery) :
    chats.foldl (fun a chat => chat.participants.foldl (notifyStep reg u ev) a) acc =
      ((chats.map Chat.participants).flatten).foldl (notifyStep reg u ev) acc := by
  induction chats generalizing acc with
  | nil => rfl
  | cons c cs ih =>
    rw [List.foldl_cons, List.map_cons, List.flatten_cons, List.foldl_append]
    exact ih _

theorem notifyFold_notified_mono (reg : List (String × Conn)) (u : String)
    (ev : Event) (ps : List String) (acc : List String × List Delivery)
    (x : String) (hx : x ∈ acc.1) :
    x ∈ (ps.foldl (notifyStep reg u ev) acc).1 := by
  induction ps generalizing acc with
  | nil => exact hx
  | cons p ps ih =>
    rw [List.foldl_cons]
    apply ih
    by_cases h : p = u ∨ p ∈ acc.1
    · rw [notifyStep_skip reg u ev acc p h]
      exact hx
    · push_neg at h
      rw [notifyStep_add reg u ev acc p h.1 h.2]
      exact List.mem_cons_of_mem _ hx

theorem notifyFold_notified_of_mem (reg : List (String × Conn)) (u : String)
    (ev : Event) (ps : List String) (acc : List String × List Delivery)
    (v : String) (hv : v ∈ ps) (hvu : ¬ v = u) :
    v ∈ (ps.foldl (notifyStep reg u ev) acc).1 := by
  induction ps generalizing acc with
  | nil => cases hv
  | cons p ps ih =>
    rw [List.foldl_cons]
    rcases List.mem_cons.mp hv with hvp | hvs
    · subst hvp
      apply notifyFold_notified_mono
      by_cases h : v ∈ acc.1
      · rw [notifyStep_skip reg u ev acc v (Or.inr h)]
        exact h
      · rw [notifyStep_add reg u ev acc v hvu h]
        exact List.mem_cons_self _ _
    · exact ih _ hvs

theorem notifyFold_deliver_inv (reg : List (String × Conn)) (u : String)
    (ev : Event) (ps : List String) (acc : List String × List Delivery)
    (hinv : ∀ r, r ∈ acc.1 → (mapGet reg r).isSome = true →
      ∃ d, d ∈ acc.2 ∧ d.recipient = r ∧ d.event = ev) :
    ∀ r, r ∈ (ps.foldl (notifyStep reg u ev) acc).1 →
      (mapGet reg r).isSome = true →
      ∃ d, d ∈ (ps.foldl (notifyStep reg u ev) acc).2 ∧ d.recipient = r ∧
        d.event = ev := by
  induction ps generalizing acc with
  | nil => exact hinv
  | cons p ps ih =>
    rw [List.foldl_cons]
    apply ih
    intro r hr hcon
    by_cases h : p = u ∨ p ∈ acc.1
    · rw [notifyStep_skip reg u ev acc p h] at hr ⊢
      exact hinv r hr hcon
    · push_neg at h
      rw [notifyStep_add reg u ev acc p h.1 h.2] at hr ⊢
      rcases List.mem_cons.mp hr with hrp | hra
      · subst hrp
        rcases Option.isSome_iff_exists.mp hcon with ⟨c, hc⟩
        rw [hc]
        exact ⟨⟨r, ev⟩, List.mem_append_right _ (List.mem_singleton.mpr rfl),
          rfl, rfl⟩
      · rcases hinv r hra hcon with ⟨d, hd, hdr, hde⟩
        cases hm : mapGet reg p with
        | none => exact ⟨d, hd, hdr, hde⟩
        | some c => exact ⟨d, List.mem_append_left _ hd, hdr, hde⟩

theorem notifyFold_nodup_inv (reg : List (String × Conn)) (u : String)
    (ev : Event) (ps : List String) (acc : List String × List Delivery)
    (hnd : (acc.2.map Delivery.recipient).Nodup)
    (hsub : ∀ r, r ∈ acc.2.map Delivery.recipient → r ∈ acc.1)
    (hnu : ∀ r, r ∈ acc.2.map Delivery.recipient → ¬ r = u) :
    ((ps.foldl (notifyStep reg u ev) acc).2.map Delivery.recipient).Nodup ∧
      (∀ r, r ∈ (ps.foldl (notifyStep reg u ev) acc).2.map Delivery.recipient →
        r ∈ (ps.foldl (notifyStep reg u ev) acc).1) ∧
      (∀ r, r ∈ (ps.foldl (notifyStep reg u ev) acc).2.map Delivery.recipient →
        ¬ r = u) := by
  induction ps generalizing acc with
  | nil => exact ⟨hnd, hsub, hnu⟩
  | cons p ps ih =>
    rw [List.foldl_cons]
    by_cases h : p = u ∨ p ∈ acc.1
    · rw [notifyStep_skip reg u ev acc p h]
      exact ih acc hnd hsub hnu
    · push_neg at h
      have hpnr : p ∉ acc.2.map Delivery.recipient := by
        intro hp
        exact h.2 (hsub p hp)
      rw [notifyStep_add reg u ev acc p h.1 h.2]
      cases hm : mapGet reg p with
      | none =>
        apply ih
        · simpa using hnd
        · intro r hr
          exact List.mem_cons_of_mem _ (hsub r (by simpa using hr))
        · intro r hr
          exact hnu r (by simpa using hr)
      | some c =>
        apply ih
        · simp only [List.map_append, List.map_cons, List.map_nil]
          rw [List.nodup_append]
          refine ⟨hnd, List.nodup_singleton _, ?_⟩
          intro r hr hrp
          rcases List.mem_singleton.mp hrp with rfl
          exact hpnr hr
        · intro r hr
          simp only [List.map_append, List.map_cons, List.map_nil,
            List.mem_append, List.mem_singleton] at hr
          rcases hr with hr | rfl
          · exact List.mem_cons_of_mem _ (hsub r hr)
          · exact List.mem_cons_self _ _
        · intro r hr
          simp only [List.map_append, List.map_cons, List.map_nil,
            List.mem_append, List.mem_singleton] at hr
          rcases hr with hr | rfl
          · exact hnu r hr
          · exact h.1

theorem broadcastToUserChats_nodup (s : HubState) (u : String) (ev : Event) :
    ((broadcastToUserChats s u ev).map Delivery.recipient).Nodup ∧
      ∀ d, d ∈ broadcastToUserChats s u ev → ¬ d.recipient = u := by
  unfold broadcastToUserChats
  rw [notifyFold_eq_flat]
  have h := notifyFold_nodup_inv s.connectedUsers u ev
    (((s.chats.filter (fun c => c.participants.contains u)).map
      Chat.participants).flatten)
    ([], []) (by simp) (by simp) (by simp)
  refine ⟨h.1, ?_⟩
  intro d hd
  exact h.2.2 d.recipient (List.mem_map_of_mem Delivery.recipient hd)

theorem broadcastToUserChats_delivers (s : HubState) (u : String) (ev : Event)
    (v : String) (hvu : ¬ v = u)
    (hcon : (mapGet s.connectedUsers v).isSome = true)
    (chat : Chat) (hc : chat ∈ s.chats) (hu : u ∈ chat.participants)
    (hv : v ∈ chat.participants) :
    ∃ d, d ∈ broadcastToUserChats s u ev ∧ d.recipient = v ∧ d.event = ev := by
  unfold broadcastToUserChats
  rw [notifyFold_eq_flat]
  have hvps : v ∈ (((s.chats.filter (fun c => c.participants.contains u)).map
      Chat.participants).flatten) := by
    apply List.mem_flatten.mpr
    refine ⟨chat.participants, ?_, hv⟩
    apply List.mem_map_of_mem
    apply List.mem_filter.mpr
    refine ⟨hc, ?_⟩
    simp [hu]
  have hnot := notifyFold_notified_of_mem s.connectedUsers u ev _ ([], []) v
    hvps hvu
  exact notifyFold_deliver_inv s.connectedUsers u ev _ ([], [])
    (by simp) v hnot hcon

theorem find?_chat_and_mem (l : List Chat) (chatId uid : String) (chat : Chat)
    (hfind : l.find? (fun c => c.chatId == chatId) = some chat)
    (hmem : uid ∈ chat.participants) :
    l.find? (fun c => c.chatId == chatId && c.participants.contains uid) =
      some chat := by
  induction l with
  | nil => cases hfind
  | cons c cs ih =>
    by_cases hc : (c.chatId == chatId) = true
    · simp only [List.find?, hc] at hfind
      injection hfind with h
      subst h
      have hboth : (c.chatId == chatId && c.participants.contains uid) = true := by
        simp [hc, hmem]
      simp only [List.find?, hboth]
    · have hc2 : (c.chatId == chatId) = false := by
        simpa using hc
      simp only [List.find?, hc2] at hfind
      have hneg : (c.chatId == chatId && c.participants.contains uid) = false := by
        simp [hc2]
      simp only [List.find?, hneg]
      exact ih hfind

theorem find?_map_setLast (l : List Chat) (chatId : String) (mid : Nat)
    (chat : Chat)
    (hfind : l.find? (fun c => c.chatId == chatId) = some chat) :
    (l.map (fun c =>
        if c.chatId == chatId then { c with lastMessage := some mid } else c)).find?
      (fun c => c.chatId == chatId) =
      some { chat with lastMessage := some mid } := by
  induction l with
  | nil => cases hfind
  | cons c cs ih =>
    by_cases hc : (c.chatId == chatId) = true
    · simp only [List.find?, hc] at hfind
      injection hfind with h
      subst h
      rw [List.map_cons, if_pos hc]
      have hc3 : (({ c with lastMessage := some mid } : Chat).chatId == chatId) = true := hc
      simp only [List.find?, hc3]
    · have hc2 : (c.chatId == chatId) = false := by
        simpa using hc
      simp only [List.find?, hc2] at hfind
      rw [List.map_cons, if_neg hc]
      simp only [List.find?, hc2]
      exact ih hfind

theorem chats_map_setLast_points (l : List Chat) (chatId : String) (mid : Nat)
    (c : Chat)
    (hc : c ∈ l.map (fun c =>
      if c.chatId == chatId then { c with lastMessage := some mid } else c))
    (hid : c.chatId = chatId) : c.lastMessage = some mid := by
  rcases List.mem_map.mp hc with ⟨c0, hc0, heq⟩
  by_cases h : (c0.chatId == chatId) = true
  · rw [if_pos h] at heq
    rw [← heq]
  · rw [if_neg h] at heq
    subst heq
    exact absurd (by simp [hid]) h

theorem broadcastToUserChats_delivers_mem (s : HubState) (u : String)
    (ev : Event) (v : String) (hvu : ¬ v = u)
    (hcon : (mapGet s.connectedUsers v).isSome = true)
    (chat : Chat) (hc : chat ∈ s.chats) (hu : u ∈ chat.participants)
    (hv : v ∈ chat.participants) :
    (⟨v, ev⟩ : Delivery) ∈ broadcastToUserChats s u ev := by
  rcases broadcastToUserChats_delivers s u ev v hvu hcon chat hc hu hv with
    ⟨d, hd, hr, he⟩
  cases d with
  | mk r0 e0 =>
    cases hr
    cases he
    exact hd

theorem handleDisconnection_some (s : HubState) (ws : Conn) (uid : String)
    (h : ws.userId = some uid) :
    handleDisconnection s ws =
      ({ s with
          connectedUsers := mapDelete s.connectedUsers uid,
          typingUsers := s.typingUsers.filter (fun kv => kv.2.userId != uid),
          users := s.users.map (fun u =>
            if u.uid == uid then { u with isOnline := false } else u) },
        broadcastToUserChats
          { s with
            connectedUsers := mapDelete s.connectedUsers uid,
            typingUsers := s.typingUsers.filter (fun kv => kv.2.userId != uid),
            users := s.users.map (fun u =>
              if u.uid == uid then { u with isOnline := false } else u) }
          uid (userOfflineEvent uid)) := by
  unfold handleDisconnection
  rw [h]

/-- A live connection authenticated as user "a". -/
def connA : Conn :=
  { connId := 1, userId := some "a", username := some "alice", isAlive := true }

/-- A live connection authenticated as user "b". -/
def connB : Conn :=
  { connId := 2, userId := some "b", username := some "bob", isAlive := true }

/-- A newer (reconnected) connection for user "a". -/
def connA2 : Conn :=
  { connId := 3, userId := some "a", username := some "alice", isAlive := true }

/-- Room "r" with members "a" and "b". -/
def roomR : Chat :=
  { chatId := "r", participants := ["a", "b"], lastMessage := none }

/-- A second room also shared by "a" and "b". -/
def roomS : Chat :=
  { chatId := "s2", participants := ["a", "b"], lastMessage := none }

/-- Base concrete state: users "a" and "b" connected, one room "r",
no typing claims, no messages, no pending timers. -/
def baseState : HubState :=
  { connectedUsers := [("a", connA), ("b", connB)],
    typingUsers := [],
    users := [{ uid := "a", isOnline := true }, { uid := "b", isOnline := true }],
    chats := [roomR],
    messages := [],
    nextMessageId := 0,
    timers := [] }

/-- C10: disconnect of a never-authenticated connection is a complete no-op
on shared state: when no user identity is bound to the closing connection,
`handleDisconnection` removes no registry entry, removes no typing claims,
performs no presence update and emits no `user_offline` fanout — the hub
state is returned unchanged and the delivery list is empty. -/
theorem C10_unauthenticated_disconnect_noop (s : HubState) (ws : Conn)
    (h : ws.userId = none) : handleDisconnection s ws = (s, []) := by
  unfold handleDisconnection
  rw [h]

/-- C10 witness: a concrete connection that was never authenticated. -/
theorem C10_unauthenticated_disconnect_noop_witness :
    handleDisconnection baseState
      { connId := 7, userId := none, username := none, isAlive := true } =
      (baseState, []) :=
  C10_unauthenticated_disconnect_noop baseState
    { connId := 7, userId := none, username := none, isAlive := true } rfl

/-- The C1 scenario: user "a" has reconnected, so the registry stores the
newer connection `connA2`; the stale connection `connA` (bound to the same
identity) then disconnects. -/
def stateC1 : HubState :=
  { baseState with connectedUsers := [("a", connA2), ("b", connB)] }

/-- C1 counterexample: the registry stores the newer connection `connA2`
for "a" and the disconnect path runs for the distinct stale connection
`connA`; afterwards the entry for "a" is gone, so the newer connection's
entry did NOT remain registered — removal is not compare-and-delete. -/
theorem C1_counterexample :
    mapGet stateC1.connectedUsers "a" = some connA2 ∧
    connA2 ≠ connA ∧
    mapGet (handleDisconnection stateC1 connA).1.connectedUsers "a" = none := by
  refine ⟨rfl, by decide, rfl⟩

/-- C1 (amended): registry removal on disconnect is an unconditional keyed
delete: whenever the disconnect path runs for a connection bound to
identity `uid`, the registry entry for `uid` is removed regardless of
which connection is currently stored — in particular a stale disconnect
evicts a newer reconnection's entry. -/
theorem C1_removal_unconditional (s : HubState) (ws : Conn) (uid : String)
    (h : ws.userId = some uid) :
    mapGet (handleDisconnection s ws).1.connectedUsers uid = none := by
  rw [handleDisconnection_some s ws uid h]
  exact mapGet_mapDelete_self _ _

/-- C1 witness: the amended theorem applied to the reconnect scenario. -/
theorem C1_removal_unconditional_witness :
    mapGet (handleDisconnection stateC1 connA).1.connectedUsers "a" = none :=
  C1_removal_unconditional stateC1 connA "a" rfl

/-- C9 counterexample: a `message_read` for a messageId matching no stored
message returns the state unchanged with an empty delivery list — the
sender receives no `error` event, so the failure is silent, refuting the
claim that NotFound is surfaced to the sender. -/
theorem C9_counterexample :
    baseState.messages.find? (fun m => m.msgId == 5) = none ∧
    handleMessageRead baseState "a" "alice" 5 "r" 1000 = (baseState, []) :=
  ⟨rfl, rfl⟩

/-- C9 (amended): when the referenced message is absent, `handleMessageRead`
returns silently: no error reply reaches the sender, no state changes and
no fanout occurs. -/
theorem C9_notfound_silent (s : HubState) (uid uname : String)
    (messageId : Nat) (chatId : String) (now : Nat)
    (h : s.messages.find? (fun m => m.msgId == messageId) = none) :
    handleMessageRead s uid uname messageId chatId now = (s, []) := by
  unfold handleMessageRead
  rw [h]

/-- C9 witness: the amended theorem applied to the absent message 5. -/
theorem C9_notfound_silent_witness :
    handleMessageRead baseState "a" "alice" 5 "r" 1000 = (baseState, []) :=
  C9_notfound_silent baseState "a" "alice" 5 "r" 1000 rfl

/-- C5: authorization failure is atomic and sender-scoped: when the sender
is not a participant of any chat with the given id, `handleSendMessage`
returns the state unchanged (nothing persisted, no last-message update)
and delivers exactly one `error` event, to the sender only. -/
theorem C5_nonmember_send_error (s : HubState)
    (uid uname chatId content : String)
    (h : ∀ c, c ∈ s.chats → c.chatId = chatId → uid ∉ c.participants) :
    handleSendMessage s uid uname chatId content = (s, [⟨uid, errorEvent⟩]) := by
  have hfind : findChatFor s chatId uid = none := by
    unfold findChatFor
    apply List.find?_eq_none.mpr
    intro c hc hp
    simp only [Bool.and_eq_true, beq_iff_eq] at hp
    exact h c hc hp.1 (List.mem_of_elem_eq_true hp.2)
  unfold handleSendMessage
  rw [hfind]

/-- C5 witness: user "c" is not a member of room "r". -/
theorem C5_nonmember_send_error_witness :
    handleSendMessage baseState "c" "carol" "r" "hi" =
      (baseState, [⟨"c", errorEvent⟩]) :=
  C5_nonmember_send_error baseState "c" "carol" "r" "hi" (by decide)

/-- C3 counterexample: no typing claim exists for ("a","r") in `baseState`,
yet processing an explicit typing_stop still emits a typing_stop fanout to
"b" — refuting the claim that a stop with no existing claim is a no-op
that emits no event. -/
theorem C3_counterexample :
    mapGet baseState.typingUsers (typingKey "a" "r") = none ∧
    (handleTypingStop baseState "a" "alice" "r").2 =
      [⟨"b", typingStopEvent "a" "r"⟩] :=
  ⟨rfl, rfl⟩

/-- C3 (amended): explicit typing stop is idempotent on the typing map but
the fanout is NOT suppressed: when no claim exists for (uid, chatId), the
state is returned unchanged, yet the typing_stop fanout excluding the
sender is still emitted, reaching every other connected member of the
room exactly as when a claim existed. -/
theorem C3_stop_fanout_unconditional (s : HubState) (uid uname chatId : String)
    (h : mapGet s.typingUsers (typingKey uid chatId) = none) :
    (handleTypingStop s uid uname chatId).1 = s ∧
    (handleTypingStop s uid uname chatId).2 =
      broadcastToChat s chatId (typingStopEvent uid chatId) (some uid) ∧
    ∀ chat v, s.chats.find? (fun c => c.chatId == chatId) = some chat →
      v ∈ chat.participants → ¬ v = uid →
      (mapGet s.connectedUsers v).isSome = true →
      (⟨v, typingStopEvent uid chatId⟩ : Delivery) ∈
        (handleTypingStop s uid uname chatId).2 := by
  have hdel : mapDelete s.typingUsers (typingKey uid chatId) = s.typingUsers :=
    mapDelete_of_absent _ _ h
  have hs1 : ({ s with
      typingUsers := mapDelete s.typingUsers (typingKey uid chatId) } :
      HubState) = s := by
    rw [hdel]
  refine ⟨hs1, ?_, ?_⟩
  · show broadcastToChat
      { s with typingUsers := mapDelete s.typingUsers (typingKey uid chatId) }
      chatId (typingStopEvent uid chatId) (some uid) = _
    rw [hs1]
  · intro chat v hfind hv hvu hcon
    show (⟨v, typingStopEvent uid chatId⟩ : Delivery) ∈ broadcastToChat
      { s with typingUsers := mapDelete s.typingUsers (typingKey uid chatId) }
      chatId (typingStopEvent uid chatId) (some uid)
    rw [hs1]
    apply mem_broadcastToChat_of s chatId _ (some uid) chat v hfind hv _ hcon
    intro hcontra
    injection hcontra with hcontra2
    exact hvu hcontra2.symm

/-- C3 witness: the amended theorem at the concrete claim-free state. -/
theorem C3_stop_fanout_unconditional_witness :
    (handleTypingStop baseState "a" "alice" "r").1 = baseState ∧
    (⟨"b", typingStopEvent "a" "r"⟩ : Delivery) ∈
      (handleTypingStop baseState "a" "alice" "r").2 :=
  ⟨(C3_stop_fanout_unconditional baseState "a" "alice" "r" rfl).1,
   (C3_stop_fanout_unconditional baseState "a" "alice" "r" rfl).2.2 roomR "b"
     rfl (by decide) (by decide) rfl⟩

/-- C7: presence fanout deduplication: `broadcastToUserChats u ev` produces
a duplicate-free recipient list (at most one delivery per distinct user
identity, even when a recipient shares several rooms with `u`), never
delivers to `u` itself, and does deliver to every connected user sharing
at least one room with `u`. -/
theorem C7_fanout_dedup (s : HubState) (u : String) (ev : Event) :
    ((broadcastToUserChats s u ev).map Delivery.recipient).Nodup ∧
    (∀ d, d ∈ broadcastToUserChats s u ev → ¬ d.recipient = u) ∧
    (∀ v chat, ¬ v = u → (mapGet s.connectedUsers v).isSome = true →
      chat ∈ s.chats → u ∈ chat.participants → v ∈ chat.participants →
      (⟨v, ev⟩ : Delivery) ∈ broadcastToUserChats s u ev) :=
  ⟨(broadcastToUserChats_nodup s u ev).1,
   (broadcastToUserChats_nodup s u ev).2,
   fun v chat hvu hcon hc hu hv =>
     broadcastToUserChats_delivers_mem s u ev v hvu hcon chat hc hu hv⟩

/-- The C7 scenario: "a" and "b" share the two rooms "r" and "s2". -/
def stateC7 : HubState := { baseState with chats := [roomR, roomS] }

/-- A presence event used in the C7 witness. -/
def presenceEvent : Event :=
  { type := EventType.user_online, evUserId := some "a", evChatId := none,
    evMessageId := none }

/-- C7 witness: with two shared rooms, "b" still receives exactly one copy
(the full delivery list is the single delivery to "b"). -/
theorem C7_fanout_dedup_witness :
    ((broadcastToUserChats stateC7 "a" presenceEvent).map
      Delivery.recipient).Nodup ∧
    (⟨"b", presenceEvent⟩ : Delivery) ∈
      broadcastToUserChats stateC7 "a" presenceEvent ∧
    broadcastToUserChats stateC7 "a" presenceEvent = [⟨"b", presenceEvent⟩] :=
  ⟨(C7_fanout_dedup stateC7 "a" presenceEvent).1,
   (C7_fanout_dedup stateC7 "a" presenceEvent).2.2 "b" roomR (by decide) rfl
     (by decide) (by decide) (by decide),
   rfl⟩

theorem handleMessageRead_already (s : HubState) (uid uname : String)
    (messageId : Nat) (chatId : String) (now : Nat) (m : Message)
    (hm : s.messages.find? (fun mm => mm.msgId == messageId) = some m)
    (ha : m.readBy.any (fun r => r.user == uid) = true) :
    handleMessageRead s uid uname messageId chatId now =
      (s, broadcastToChat s chatId (messageReadEvent uid chatId messageId)
        none) := by
  unfold handleMessageRead
  rw [hm]
  simp [ha]

/-- C6: read-receipt idempotence with unsuppressed notification: when the
sender already appears in the message's readBy list (exactly once), a
second message_read leaves the state unchanged — the message still holds
exactly one receipt for the sender and nothing is persisted — yet the
message_read fanout still reaches every connected member of the room,
including the sender. -/
theorem C6_read_idempotent (s : HubState) (uid uname : String)
    (messageId : Nat) (chatId : String) (now : Nat) (m : Message) (chat : Chat)
    (hm : s.messages.find? (fun mm => mm.msgId == messageId) = some m)
    (ha : m.readBy.any (fun r => r.user == uid) = true)
    (hcount : (m.readBy.filter (fun r => r.user == uid)).length = 1)
    (hfind : s.chats.find? (fun c => c.chatId == chatId) = some chat) :
    (handleMessageRead s uid uname messageId chatId now).1 = s ∧
    ((handleMessageRead s uid uname messageId chatId now).1.messages.find?
      (fun mm => mm.msgId == messageId)) = some m ∧
    (m.readBy.filter (fun r => r.user == uid)).length = 1 ∧
    (∀ v, v ∈ chat.participants → (mapGet s.connectedUsers v).isSome = true →
      (⟨v, messageReadEvent uid chatId messageId⟩ : Delivery) ∈
        (handleMessageRead s uid uname messageId chatId now).2) := by
  have hunfold := handleMessageRead_already s uid uname messageId chatId now m
    hm ha
  rw [hunfold]
  refine ⟨rfl, hm, hcount, ?_⟩
  intro v hv hcon
  exact mem_broadcastToChat_of s chatId _ none chat v hfind hv (by simp) hcon

/-- A message already read by its reader "a". -/
def msgM : Message :=
  { msgId := 0, sender := "a", chat := "r", content := "hi",
    readBy := [{ user := "a", readAt := 5 }] }

/-- The C6 scenario: `baseState` holding `msgM`. -/
def stateC6 : HubState := { baseState with messages := [msgM], nextMessageId := 1 }

/-- C6 witness: re-reading message 0 keeps the state and still notifies
both "a" (the reader) and "b". -/
theorem C6_read_idempotent_witness :
    (handleMessageRead stateC6 "a" "alice" 0 "r" 9).1 = stateC6 ∧
    (⟨"a", messageReadEvent "a" "r" 0⟩ : Delivery) ∈
      (handleMessageRead stateC6 "a" "alice" 0 "r" 9).2 ∧
    (⟨"b", messageReadEvent "a" "r" 0⟩ : Delivery) ∈
      (handleMessageRead stateC6 "a" "alice" 0 "r" 9).2 :=
  ⟨(C6_read_idempotent stateC6 "a" "alice" 0 "r" 9 msgM roomR rfl rfl rfl
      rfl).1,
   (C6_read_idempotent stateC6 "a" "alice" 0 "r" 9 msgM roomR rfl rfl rfl
      rfl).2.2.2 "a" (by decide) rfl,
   (C6_read_idempotent stateC6 "a" "alice" 0 "r" 9 msgM roomR rfl rfl rfl
      rfl).2.2.2 "b" (by decide) rfl⟩

/-- C8: two-tick liveness detection: a connection whose liveness flag was
confirmed at connect time is not terminated at the first heartbeat tick
(the tick only resets the flag and pings); if it never answers, the second
consecutive tick terminates it, and the disconnect path for that
connection removes its registry entry and the `user_offline` fanout
reaches every other connected co-member. -/
theorem C8_two_tick_liveness (c : Conn) (uid : String) (s : HubState)
    (h1 : c.isAlive = true) (h2 : c.userId = some uid)
    (v : String) (hv : ¬ v = uid)
    (hvc : (mapGet s.connectedUsers v).isSome = true)
    (chat : Chat) (hc : chat ∈ s.chats) (hu : uid ∈ chat.participants)
    (hvm : v ∈ chat.participants) :
    heartbeatCheck c = some { c with isAlive := false } ∧
    heartbeatCheck { c with isAlive := false } = none ∧
    mapGet (handleDisconnection s
      { c with isAlive := false }).1.connectedUsers uid = none ∧
    (⟨v, userOfflineEvent uid⟩ : Delivery) ∈
      (handleDisconnection s { c with isAlive := false }).2 := by
  have hcu : ({ c with isAlive := false } : Conn).userId = some uid := h2
  have hds := handleDisconnection_some s { c with isAlive := false } uid hcu
  have hcon2 : (mapGet (mapDelete s.connectedUsers uid) v).isSome = true := by
    rw [mapGet_mapDelete_ne s.connectedUsers uid v (fun he => hv he.symm)]
    exact hvc
  refine ⟨?_, ?_, ?_, ?_⟩
  · simp [heartbeatCheck, h1]
  · simp [heartbeatCheck]
  · rw [hds]
    exact mapGet_mapDelete_self _ _
  · rw [hds]
    exact broadcastToUserChats_delivers_mem _ uid (userOfflineEvent uid) v hv
      hcon2 chat hc hu hvm

/-- C8 witness: connA (flag confirmed at connect) in the concrete state. -/
theorem C8_two_tick_liveness_witness :
    heartbeatCheck connA = some { connA with isAlive := false } ∧
    heartbeatCheck { connA with isAlive := false } = none ∧
    mapGet (handleDisconnection baseState
      { connA with isAlive := false }).1.connectedUsers "a" = none ∧
    (⟨"b", userOfflineEvent "a"⟩ : Delivery) ∈
      (handleDisconnection baseState { connA with isAlive := false }).2 :=
  C8_two_tick_liveness connA "a" baseState rfl rfl "b" (by decide) rfl roomR
    (by decide) (by decide) (by decide)

theorem runTypingTimeout_present (s : HubState) (tm : TypingTimer)
    (h : (mapGet s.typingUsers tm.key).isSome = true) :
    runTypingTimeout s tm =
      ({ s with typingUsers := mapDelete s.typingUsers tm.key },
        broadcastToChat { s with typingUsers := mapDelete s.typingUsers tm.key }
          tm.chatId (typingStopEvent tm.userId tm.chatId) (some tm.userId)) := by
  unfold runTypingTimeout
  rw [if_pos h]

/-- The state after a first typing_start by "a" in "r" at t=0. -/
def stateC2a : HubState := (handleTypingStart baseState "a" "alice" "r" 0).1

/-- The state after a second typing_start by "a" in "r" at t=2000. -/
def stateC2b : HubState := (handleTypingStart stateC2a "a" "alice" "r" 2000).1

/-- The expiry timer scheduled by the first typing_start: fires at t=3000. -/
def timerC2 : TypingTimer := typingTimerAt "a" "alice" "r" 0

/-- C2 counterexample: "a" starts typing in "r" at t=0 and again at t=2000
(within 3000ms). The first start's expiry callback is still pending and
fires at t=3000, which is before 2000+3000; it finds the refreshed claim
present under the same key, removes it, and emits an auto-expiry
typing_stop fanout to "b" — refuting the claim that no auto-expiry
typing_stop is emitted before 3000ms after the second start. -/
theorem C2_counterexample :
    stateC2b.timers.head? = some timerC2 ∧
    timerC2.fireAt < 2000 + 3000 ∧
    (runTypingTimeout stateC2b timerC2).2 =
      [⟨"b", typingStopEvent "a" "r"⟩] ∧
    mapGet (runTypingTimeout stateC2b timerC2).1.typingUsers
      (typingKey "a" "r") = none := by
  refine ⟨rfl, by decide, rfl, rfl⟩

/-- C2 (amended): a second typing_start for the same (user, room)
refreshes the stored claim's timestamp but neither cancels nor reschedules
the first start's pending expiry; that expiry remains scheduled at
t1+3000 — before t2+3000 — and when it fires it finds the refreshed claim
present under the same key, removes it, and emits the auto-expiry
typing_stop fanout excluding the sender. -/
theorem C2_expiry_not_superseded (s s1 s2 : HubState)
    (uid uname chatId : String) (t1 t2 : Nat) (tm : TypingTimer)
    (hlt : t1 < t2)
    (hs1 : s1 = (handleTypingStart s uid uname chatId t1).1)
    (hs2 : s2 = (handleTypingStart s1 uid uname chatId t2).1)
    (htm : tm = typingTimerAt uid uname chatId t1) :
    tm ∈ s2.timers ∧
    mapGet s2.typingUsers (typingKey uid chatId) =
      some (typingClaim uid uname chatId t2) ∧
    tm.fireAt < t2 + 3000 ∧
    (runTypingTimeout s2 tm).1.typingUsers =
      mapDelete s2.typingUsers (typingKey uid chatId) ∧
    (runTypingTimeout s2 tm).2 =
      broadcastToChat (runTypingTimeout s2 tm).1 chatId
        (typingStopEvent uid chatId) (some uid) := by
  subst hs1 hs2 htm
  have hget : mapGet ((handleTypingStart (handleTypingStart s uid uname chatId
      t1).1 uid uname chatId t2).1).typingUsers (typingKey uid chatId) =
      some (typingClaim uid uname chatId t2) :=
    mapGet_mapSet_self _ _ _
  have hpres : (mapGet ((handleTypingStart (handleTypingStart s uid uname
      chatId t1).1 uid uname chatId t2).1).typingUsers
      (typingKey uid chatId)).isSome = true := by
    rw [hget]
    rfl
  have hrun := runTypingTimeout_present
    ((handleTypingStart (handleTypingStart s uid uname chatId t1).1 uid uname
      chatId t2).1)
    (typingTimerAt uid uname chatId t1) hpres
  refine ⟨?_, hget, ?_, ?_, ?_⟩
  · show typingTimerAt uid uname chatId t1 ∈
      (s.timers ++ [typingTimerAt uid uname chatId t1]) ++
        [typingTimerAt uid uname chatId t2]
    simp
  · show t1 + 3000 < t2 + 3000
    omega
  · rw [hrun]
    rfl
  · rw [hrun]
    rfl

/-- C2 witness: the amended theorem at the concrete t1=0, t2=2000 trace. -/
theorem C2_expiry_not_superseded_witness :
    timerC2 ∈ stateC2b.timers ∧
    mapGet stateC2b.typingUsers (typingKey "a" "r") =
      some (typingClaim "a" "alice" "r" 2000) ∧
    timerC2.fireAt < 2000 + 3000 ∧
    (runTypingTimeout stateC2b timerC2).1.typingUsers =
      mapDelete stateC2b.typingUsers (typingKey "a" "r") ∧
    (runTypingTimeout stateC2b timerC2).2 =
      broadcastToChat (runTypingTimeout stateC2b timerC2).1 "r"
        (typingStopEvent "a" "r") (some "a") :=
  C2_expiry_not_superseded baseState stateC2a stateC2b "a" "alice" "r" 0 2000
    timerC2 (by decide) rfl rfl rfl

/-- The message record persisted by a successful send. -/
def sentMessage (s : HubState) (uid chatId content : String) : Message :=
  { msgId := s.nextMessageId, sender := uid, chat := chatId,
    content := content, readBy := [] }

/-- The state after persisting the message and updating the chat's
last-message pointer, before the typing-claim removal. -/
def sendMid (s : HubState) (uid chatId content : String) : HubState :=
  { s with
    messages := s.messages ++ [sentMessage s uid chatId content],
    nextMessageId := s.nextMessageId + 1,
    chats := s.chats.map (fun c =>
      if c.chatId == chatId then { c with lastMessage := some s.nextMessageId }
      else c) }

/-- The state after additionally deleting the sender's typing claim. -/
def sendDone (s : HubState) (uid chatId content : String) : HubState :=
  { sendMid s uid chatId content with
    typingUsers := mapDelete (sendMid s uid chatId content).typingUsers
      (typingKey uid chatId) }

theorem handleSendMessage_found (s : HubState)
    (uid uname chatId content : String) (chat : Chat)
    (hfc : findChatFor s chatId uid = some chat) :
    handleSendMessage s uid uname chatId content =
      (sendDone s uid chatId content,
        broadcastToChat (sendMid s uid chatId content) chatId
          (newMessageEvent chatId s.nextMessageId) none ++
        broadcastToChat (sendDone s uid chatId content) chatId
          (typingStopEvent uid chatId) (some uid)) := by
  unfold handleSendMessage sendDone sendMid sentMessage
  rw [hfc]

/-- C4: successful send_message fanout shape: for a member of the room,
the hub persists exactly the new message, points every record of the room
at it, removes any typing claim for (sender, room), broadcasts exactly one
new_message to every connected member including the sender, then exactly
one typing_stop to every connected member except the sender and none to
the sender — all regardless of whether a typing claim existed. -/
theorem C4_send_message_fanout (s : HubState)
    (uid uname chatId content : String) (chat : Chat)
    (hfind : s.chats.find? (fun c => c.chatId == chatId) = some chat)
    (hmem : uid ∈ chat.participants)
    (hnd : chat.participants.Nodup) :
    (handleSendMessage s uid uname chatId content).1.messages =
      s.messages ++ [sentMessage s uid chatId content] ∧
    (∀ c, c ∈ (handleSendMessage s uid uname chatId content).1.chats →
      c.chatId = chatId → c.lastMessage = some s.nextMessageId) ∧
    mapGet (handleSendMessage s uid uname chatId content).1.typingUsers
      (typingKey uid chatId) = none ∧
    (∀ v, v ∈ chat.participants →
      (mapGet s.connectedUsers v).isSome = true →
      countDeliv (handleSendMessage s uid uname chatId content).2 v
        EventType.new_message = 1) ∧
    (∀ v, v ∈ chat.participants →
      (mapGet s.connectedUsers v).isSome = true → ¬ v = uid →
      countDeliv (handleSendMessage s uid uname chatId content).2 v
        EventType.typing_stop = 1) ∧
    countDeliv (handleSendMessage s uid uname chatId content).2 uid
      EventType.typing_stop = 0 := by
  have hfc : findChatFor s chatId uid = some chat := by
    unfold findChatFor
    exact find?_chat_and_mem s.chats chatId uid chat hfind hmem
  have h1eq : (handleSendMessage s uid uname chatId content).1 =
      sendDone s uid chatId content := by
    rw [handleSendMessage_found s uid uname chatId content chat hfc]
  have h2eq : (handleSendMessage s uid uname chatId content).2 =
      broadcastToChat (sendMid s uid chatId content) chatId
        (newMessageEvent chatId s.nextMessageId) none ++
      broadcastToChat (sendDone s uid chatId content) chatId
        (typingStopEvent uid chatId) (some uid) := by
    rw [handleSendMessage_found s uid uname chatId content chat hfc]
  have hfind2 : (sendMid s uid chatId content).chats.find?
      (fun c => c.chatId == chatId) =
      some { chat with lastMessage := some s.nextMessageId } :=
    find?_map_setLast s.chats chatId s.nextMessageId chat hfind
  have hfind3 : (sendDone s uid chatId content).chats.find?
      (fun c => c.chatId == chatId) =
      some { chat with lastMessage := some s.nextMessageId } := hfind2
  rw [h1eq, h2eq]
  refine ⟨rfl, ?_, ?_, ?_, ?_, ?_⟩
  · intro c hcmem hcid
    exact chats_map_setLast_points s.chats chatId s.nextMessageId c hcmem hcid
  · exact mapGet_mapDelete_self _ _
  · intro v hv hcon
    rw [countDeliv_append]
    rw [countDeliv_broadcastToChat (sendMid s uid chatId content) chatId
      (newMessageEvent chatId s.nextMessageId) none v EventType.new_message
      { chat with lastMessage := some s.nextMessageId } hfind2 hnd]
    rw [countDeliv_broadcastToChat (sendDone s uid chatId content) chatId
      (typingStopEvent uid chatId) (some uid) v EventType.new_message
      { chat with lastMessage := some s.nextMessageId } hfind3 hnd]
    rw [if_pos ⟨hv, by simp, hcon, rfl⟩]
    rw [if_neg (fun hcond => by
      have := hcond.2.2.2
      simp [typingStopEvent] at this)]
  · intro v hv hcon hvu
    rw [countDeliv_append]
    rw [countDeliv_broadcastToChat (sendMid s uid chatId content) chatId
      (newMessageEvent chatId s.nextMessageId) none v EventType.typing_stop
      { chat with lastMessage := some s.nextMessageId } hfind2 hnd]
    rw [countDeliv_broadcastToChat (sendDone s uid chatId content) chatId
      (typingStopEvent uid chatId) (some uid) v EventType.typing_stop
      { chat with lastMessage := some s.nextMessageId } hfind3 hnd]
    rw [if_neg (fun hcond => by
      have := hcond.2.2.2
      simp [newMessageEvent] at this)]
    rw [if_pos ⟨hv, fun hcontra => hvu (Option.some.inj hcontra).symm,
      hcon, rfl⟩]
  · rw [countDeliv_append]
    rw [countDeliv_broadcastToChat (sendMid s uid chatId content) chatId
      (newMessageEvent chatId s.nextMessageId) none uid EventType.typing_stop
      { chat with lastMessage := some s.nextMessageId } hfind2 hnd]
    rw [countDeliv_broadcastToChat (sendDone s uid chatId content) chatId
      (typingStopEvent uid chatId) (some uid) uid EventType.typing_stop
      { chat with lastMessage := some s.nextMessageId } hfind3 hnd]
    rw [if_neg (fun hcond => by
      have := hcond.2.2.2
      simp [newMessageEvent] at this)]
    rw [if_neg (fun hcond => hcond.2.1 rfl)]

/-- C4 witness: member "a" sends "hi" to room "r" in the concrete state
with no typing claim present. -/
theorem C4_send_message_fanout_witness :
    (handleSendMessage baseState "a" "alice" "r" "hi").1.messages =
      baseState.messages ++ [sentMessage baseState "a" "r" "hi"] ∧
    countDeliv (handleSendMessage baseState "a" "alice" "r" "hi").2 "a"
      EventType.new_message = 1 ∧
    countDeliv (handleSendMessage baseState "a" "alice" "r" "hi").2 "b"
      EventType.new_message = 1 ∧
    countDeliv (handleSendMessage baseState "a" "alice" "r" "hi").2 "b"
      EventType.typing_stop = 1 ∧
    countDeliv (handleSendMessage baseState "a" "alice" "r" "hi").2 "a"
      EventType.typing_stop = 0 :=
  ⟨(C4_send_message_fanout baseState "a" "alice" "r" "hi" roomR rfl
      (by decide) (by decide)).1,
   (C4_send_message_fanout baseState "a" "alice" "r" "hi" roomR rfl
      (by decide) (by decide)).2.2.2.1 "a" (by decide) rfl,
   (C4_send_message_fanout baseState "a" "alice" "r" "hi" roomR rfl
      (by decide) (by decide)).2.2.2.1 "b" (by decide) rfl,
   (C4_send_message_fanout baseState "a" "alice" "r" "hi" roomR rfl
      (by decide) (by decide)).2.2.2.2.1 "b" (by decide) rfl (by decide),
   (C4_send_message_fanout baseState "a" "alice" "r" "hi" roomR rfl
      (by decide) (by decide)).2.2.2.2.2⟩

end ChatHub
